import Mathlib

/-!
Verification of the URL↔filename codec, link generation, and store
operations of the QR-code API.  Python strings are modelled as `List Char`,
byte strings as `List Nat` (each element `< 256`), fallible Python calls
(raising `ValueError` / `binascii.Error` / `UnicodeDecodeError`) as
`Option`-returning functions, and the artifact store as a list of path
strings.
-/

namespace QRCodeAPI

/-- Convert a Lean string literal to the `List Char` model of a Python string. -/
def str (s : String) : List Char := s.data

/-! ### UTF-8 codec
Model of Python `str.encode('utf-8')` and `bytes.decode('utf-8')` (strict:
rejects overlong forms, surrogates, and out-of-range code points). -/

/-- UTF-8 encoding of one Unicode scalar value. -/
def utf8EncodeChar (c : Char) : List Nat :=
  let n := c.toNat
  if n < 0x80 then [n]
  else if n < 0x800 then [0xC0 + n / 64, 0x80 + n % 64]
  else if n < 0x10000 then [0xE0 + n / 4096, 0x80 + n / 64 % 64, 0x80 + n % 64]
  else [0xF0 + n / 262144, 0x80 + n / 4096 % 64, 0x80 + n / 64 % 64, 0x80 + n % 64]

/-- Model of Python `s.encode('utf-8')` (total: Lean `Char`s are valid scalars). -/
def utf8Encode (s : List Char) : List Nat := (s.map utf8EncodeChar).flatten

/-- One step of Python's strict UTF-8 decoder: given a lead byte and the
following bytes, the decoded scalar value and the remaining bytes, or `none`
on a malformed sequence (overlong forms, surrogates, bad continuations). -/
def utf8Step (b1 : Nat) (rest : List Nat) : Option (Nat × List Nat) :=
  if b1 < 0x80 then some (b1, rest)
  else if b1 < 0xC2 then none
  else if b1 < 0xE0 then
    match rest with
    | b2 :: rest2 =>
      if 0x80 ≤ b2 ∧ b2 < 0xC0 then some ((b1 - 0xC0) * 64 + (b2 - 0x80), rest2) else none
    | [] => none
  else if b1 < 0xF0 then
    match rest with
    | b2 :: b3 :: rest3 =>
      if (if b1 = 0xE0 then 0xA0 ≤ b2 ∧ b2 < 0xC0
          else if b1 = 0xED then 0x80 ≤ b2 ∧ b2 < 0xA0
          else 0x80 ≤ b2 ∧ b2 < 0xC0) ∧ 0x80 ≤ b3 ∧ b3 < 0xC0 then
        some ((b1 - 0xE0) * 4096 + (b2 - 0x80) * 64 + (b3 - 0x80), rest3)
      else none
    | _ => none
  else if b1 < 0xF5 then
    match rest with
    | b2 :: b3 :: b4 :: rest4 =>
      if (if b1 = 0xF0 then 0x90 ≤ b2 ∧ b2 < 0xC0
          else if b1 = 0xF4 then 0x80 ≤ b2 ∧ b2 < 0x90
          else 0x80 ≤ b2 ∧ b2 < 0xC0) ∧ 0x80 ≤ b3 ∧ b3 < 0xC0 ∧ 0x80 ≤ b4 ∧ b4 < 0xC0 then
        some ((b1 - 0xF0) * 262144 + (b2 - 0x80) * 4096 + (b3 - 0x80) * 64 + (b4 - 0x80), rest4)
      else none
    | _ => none
  else none

/-- A successful step consumes at least the lead byte. -/
theorem utf8Step_length {b1 : Nat} {rest : List Nat} {n : Nat} {rest2 : List Nat}
    (h : utf8Step b1 rest = some (n, rest2)) : rest2.length ≤ rest.length := by
  rcases rest with _ | ⟨b2, _ | ⟨b3, _ | ⟨b4, rest4⟩⟩⟩ <;>
    simp only [utf8Step] at h <;> split_ifs at h <;> simp at h
  all_goals obtain ⟨-, rfl⟩ := h
  all_goals (try simp only [List.length_cons])
  all_goals omega

/-- The UTF-8 decoding loop, structurally recursive on a fuel argument that
`utf8Decode` instantiates with the byte count (each step consumes at least
one byte, so the fuel never runs out; see `utf8DecodeAux_mono`). -/
def utf8DecodeAux : Nat → List Nat → Option (List Char)
  | _, [] => some []
  | 0, _ :: _ => none
  | fuel + 1, b1 :: rest =>
    match utf8Step b1 rest with
    | none => none
    | some (n, rest2) => (utf8DecodeAux fuel rest2).map (fun cs => Char.ofNat n :: cs)

/-- Model of Python `bytes.decode('utf-8')`: `none` models `UnicodeDecodeError`. -/
def utf8Decode (l : List Nat) : Option (List Char) := utf8DecodeAux l.length l

/-! ### URL-safe base-64
Model of Python `base64.urlsafe_b64encode` and `base64.urlsafe_b64decode`;
the decoder mirrors CPython's non-strict `binascii.a2b_base64`, which
silently discards characters outside the alphabet and tolerates excess
padding after a complete quantum. -/

/-- The URL-safe base-64 alphabet, as byte values (`-`/`_` replace `+`/`/`). -/
def b64c (n : Nat) : Nat :=
  if n < 26 then 65 + n
  else if n < 52 then 97 + (n - 26)
  else if n < 62 then 48 + (n - 52)
  else if n = 62 then 45
  else 95

/-- Model of `base64.urlsafe_b64encode`: bytes to base-64 bytes with `=` (61) padding. -/
def urlsafe_b64encode : List Nat → List Nat
  | b1 :: b2 :: b3 :: rest =>
    b64c (b1 / 4) :: b64c (b1 % 4 * 16 + b2 / 16) :: b64c (b2 % 16 * 4 + b3 / 64) ::
      b64c (b3 % 64) :: urlsafe_b64encode rest
  | [b1, b2] => [b64c (b1 / 4), b64c (b1 % 4 * 16 + b2 / 16), b64c (b2 % 16 * 4), 61]
  | [b1] => [b64c (b1 / 4), b64c (b1 % 4 * 16), 61, 61]
  | [] => []

/-- The padding-free part of `urlsafe_b64encode` (what is left after `rstrip('=')`). -/
def b64body : List Nat → List Nat
  | b1 :: b2 :: b3 :: rest =>
    b64c (b1 / 4) :: b64c (b1 % 4 * 16 + b2 / 16) :: b64c (b2 % 16 * 4 + b3 / 64) ::
      b64c (b3 % 64) :: b64body rest
  | [b1, b2] => [b64c (b1 / 4), b64c (b1 % 4 * 16 + b2 / 16), b64c (b2 % 16 * 4)]
  | [b1] => [b64c (b1 / 4), b64c (b1 % 4 * 16)]
  | [] => []

/-- CPython's base-64 digit table: byte value to 6-bit value (`=` excluded). -/
def table_a2b (b : Nat) : Option Nat :=
  if 65 ≤ b ∧ b ≤ 90 then some (b - 65)
  else if 97 ≤ b ∧ b ≤ 122 then some (b - 97 + 26)
  else if 48 ≤ b ∧ b ≤ 57 then some (b - 48 + 52)
  else if b = 43 then some 62
  else if b = 47 then some 63
  else none

/-- The byte translation `urlsafe_b64decode` applies before decoding: `-`→`+`, `_`→`/`. -/
def urlsafeTranslate (b : Nat) : Nat := if b = 45 then 43 else if b = 95 then 47 else b

/-- The state machine of CPython's non-strict `binascii.a2b_base64`:
input bytes, quad position, pending bits, pad counter, reversed output. -/
def a2bLoop : List Nat → Nat → Nat → Nat → List Nat → Option (List Nat)
  | [], quad_pos, _, _, acc => if quad_pos = 0 then some acc.reverse else none
  | b :: rest, quad_pos, leftchar, pads, acc =>
    if b = 61 then
      if 2 ≤ quad_pos then
        if 4 ≤ quad_pos + (pads + 1) then some acc.reverse
        else a2bLoop rest quad_pos leftchar (pads + 1) acc
      else a2bLoop rest quad_pos leftchar pads acc
    else
      match table_a2b b with
      | none => a2bLoop rest quad_pos leftchar pads acc
      | some v =>
        match quad_pos with
        | 0 => a2bLoop rest 1 v 0 acc
        | 1 => a2bLoop rest 2 (v % 16) 0 ((leftchar * 4 + v / 16) :: acc)
        | 2 => a2bLoop rest 3 (v % 4) 0 ((leftchar * 16 + v / 4) :: acc)
        | _ => a2bLoop rest 0 0 0 ((leftchar * 64 + v) :: acc)

/-- Model of non-strict `binascii.a2b_base64`; `none` models `binascii.Error`. -/
def a2b_base64 (data : List Nat) : Option (List Nat) := a2bLoop data 0 0 0 []

/-- Model of `base64.urlsafe_b64decode` on a Python `str`: ASCII check
(from `_bytes_from_decode_data`), alphabet translation, then `a2b_base64`. -/
def urlsafe_b64decode (s : List Char) : Option (List Nat) :=
  if s.all (fun c => c.toNat < 128) then
    a2b_base64 (s.map (fun c => urlsafeTranslate c.toNat))
  else none

/-- Python `bytes.rstrip(b'=')` on base-64 output. -/
def rstripEq (l : List Nat) : List Nat := (l.reverse.dropWhile (fun b => b == 61)).reverse

/-! ### URL validation and sanitization -/

/-- Modelled from the spec: a scheme character accepted by the general-purpose
URL grammar used by the third-party `validators.url` rule (not under `src/`). -/
def isSchemeChar (c : Char) : Bool :=
  (97 ≤ c.toNat && c.toNat ≤ 122) || (48 ≤ c.toNat && c.toNat ≤ 57) ||
    c == '+' || c == '-' || c == '.'

/-- Modelled from the spec: a character allowed in the authority component. -/
def isHostChar (c : Char) : Bool :=
  (97 ≤ c.toNat && c.toNat ≤ 122) || (65 ≤ c.toNat && c.toNat ≤ 90) ||
    (48 ≤ c.toNat && c.toNat ≤ 57) || c == '-' || c == '.' || c == ':' || c == '@'

/-- Modelled from the spec: the third-party `validators.url` well-formedness
check (not under `src/`): scheme and authority must be present and
syntactically valid, pure syntactic validation, no network access. -/
def validators_url (s : List Char) : Bool :=
  let scheme := s.takeWhile isSchemeChar
  let rest := s.drop scheme.length
  let netloc := (rest.drop 3).takeWhile (fun c => !(c == '/' || c == '?' || c == '#'))
  decide (0 < scheme.length) && rest.take 3 == str "://" && decide (0 < netloc.length) &&
    netloc.all isHostChar && s.all (fun c => 32 < c.toNat && c.toNat < 127)

/-- Modelled from the spec: `urlunparse(urlparse(s))` (Python stdlib, not under
`src/`) — parse into components and reserialize canonically; lossy but
deterministic (an empty query or fragment loses its `?` / `#` marker). -/
def urlunparse_urlparse (s : List Char) : List Char :=
  let scheme := s.takeWhile (fun c => !(c == ':'))
  let after := s.drop (scheme.length + 3)
  let netloc := after.takeWhile (fun c => !(c == '/' || c == '?' || c == '#'))
  let rest2 := after.drop netloc.length
  let path := rest2.takeWhile (fun c => !(c == '?' || c == '#'))
  let rest3 := rest2.drop path.length
  let qpart := rest3.takeWhile (fun c => !(c == '#'))
  let query := qpart.drop 1
  let frag := (rest3.drop qpart.length).drop 1
  scheme ++ str "://" ++ netloc ++ path ++
    (if query = [] then [] else '?' :: query) ++
    (if frag = [] then [] else '#' :: frag)

/-- `validate_and_sanitize_url` from `app/utils/common.py`: accept iff
`validators.url` holds, then return the reserialized parse; `none` models
the raised `ValueError("Invalid URL provided")`. -/
def validate_and_sanitize_url (url_str : List Char) : Option (List Char) :=
  if validators_url url_str then some (urlunparse_urlparse url_str) else none

/-! ### The URL↔filename codec from `app/utils/common.py` -/

/-- `encode_url_to_filename`: validate/sanitize, UTF-8 encode, URL-safe
base-64 encode, strip trailing `=`. -/
def encode_url_to_filename (url : List Char) : Option (List Char) :=
  (validate_and_sanitize_url url).map
    (fun su => (rstripEq (urlsafe_b64encode (utf8Encode su))).map Char.ofNat)

/-- `decode_filename_to_url`: append `4 - len % 4` padding characters when
that count is nonzero (note: it always is, the formula yields 4, not 0, for
lengths divisible by 4), base-64 decode, UTF-8 decode. -/
def decode_filename_to_url (encoded_str : List Char) : Option (List Char) :=
  let padding_needed := 4 - encoded_str.length % 4
  let padded :=
    if padding_needed ≠ 0 then encoded_str ++ List.replicate padding_needed '=' else encoded_str
  match urlsafe_b64decode padded with
  | none => none
  | some bytes => utf8Decode bytes

/-- The number of `=` characters `decode_filename_to_url` actually appends. -/
def padding_applied (encoded_str : List Char) : Nat :=
  let padding_needed := 4 - encoded_str.length % 4
  if padding_needed ≠ 0 then padding_needed else 0

/-- A character of the URL-safe base-64 alphabet (`A-Z a-z 0-9 - _`):
one the decoder's digit table accepts after translation. -/
def isB64UrlChar (c : Char) : Bool := (table_a2b (urlsafeTranslate c.toNat)).isSome

/-- Valid URL-safe base-64 in the strict sense of the spec: alphabet
characters followed by at most two `=` pads, total length a multiple of 4.
(Spec-side definition, for comparison with the code's lenient decoder.) -/
def isStrictBase64Url (s : List Char) : Bool :=
  let data := (s.reverse.dropWhile (fun c => c == '=')).reverse
  data.all isB64UrlChar && decide (s.length - data.length ≤ 2) && decide (s.length % 4 = 0)

/-! ### HATEOAS link generation from `app/utils/common.py` -/

/-- One HATEOAS link: `{rel, href, action, type}`. -/
structure Link where
  rel : List Char
  href : List Char
  action : List Char
  type : List Char
deriving DecidableEq

/-- `generate_links`: for `list`/`create`, decode the filename minus its last
four characters (a raised `MalformedIdentifier` propagates, modelled as
`none`) and emit a `view` link; for `list`/`create`/`delete`, emit a
`delete` link; for any other action, return the empty list. -/
def generate_links (action qr_filename base_api_url download_url : List Char) :
    Option (List Link) :=
  let deleteLink : Link :=
    ⟨str "delete", base_api_url ++ str "/qr-codes/" ++ qr_filename,
      str "DELETE", str "application/json"⟩
  if action = str "list" ∨ action = str "create" then
    match decode_filename_to_url (qr_filename.take (qr_filename.length - 4)) with
    | none => none
    | some _ =>
      some [⟨str "view", download_url, str "GET", str "image/png"⟩, deleteLink]
  else if action = str "delete" then some [deleteLink]
  else some []

/-! ### Configuration defaults from `app/config.py` and the store model
The artifact store (the `QR_DIRECTORY` directory) is a list of path strings;
`os.path`/`pathlib` path arithmetic is modelled on those strings. -/

def QR_DIRECTORY : List Char := str "qr_codes"

def SERVER_BASE_URL : List Char := str "http://localhost:8000"

def SERVER_DOWNLOAD_FOLDER : List Char := str "downloads"

/-- A filesystem: the list of existing file paths. -/
abbrev FS := List (List Char)

/-- `pathlib`'s `dir / name` (an absolute right operand replaces the left). -/
def pathDiv (a b : List Char) : List Char :=
  if b.take 1 = ['/'] then b else a ++ ['/'] ++ b

/-- `os.path.join(a, b)` for one relative-or-absolute right operand. -/
def pathJoin (a b : List Char) : List Char :=
  if b.take 1 = ['/'] then b else a ++ ['/'] ++ b

/-- `os.listdir` on the store: names of files directly inside `dir`. -/
def listdir (dir : List Char) (fs : FS) : List (List Char) :=
  fs.filterMap (fun p =>
    if (dir ++ ['/']).isPrefixOf p ∧ ¬ '/' ∈ p.drop (dir.length + 1) then
      some (p.drop (dir.length + 1))
    else none)

/-! ### Service layer from `app/services/qr_service.py` -/

/-- `list_qr_codes`: the `.png` entries of the directory. -/
def list_qr_codes (directory_path : List Char) (fs : FS) : List (List Char) :=
  (listdir directory_path fs).filter (fun f => (str ".png").isSuffixOf f)

/-- `delete_qr_code(file_name, directory="qr_codes")`: join the default
directory with the *file_name argument*, remove that path if it exists,
and report whether anything was removed. -/
def delete_qr_code (file_name : List Char) (directory : List Char) (fs : FS) : Bool × FS :=
  let file_path := pathJoin directory file_name
  if file_path ∈ fs then (true, fs.erase file_path) else (false, fs)

/-! ### Endpoint layer from `app/routers/qr_code.py` -/

/-- The response body `{message, qr_code_url, links}`. -/
structure QRCodeResponse where
  message : List Char
  qr_code_url : List Char
  links : List Link
deriving DecidableEq

/-- HTTP outcome of the create endpoint. -/
inductive CreateStatus where
  | ok200
  | created201
deriving DecidableEq

/-- The download URL `f"{SERVER_BASE_URL}/{SERVER_DOWNLOAD_FOLDER}/{qr_filename}"`. -/
def downloadUrlOf (qr_filename : List Char) : List Char :=
  SERVER_BASE_URL ++ ['/'] ++ SERVER_DOWNLOAD_FOLDER ++ ['/'] ++ qr_filename

/-- `create_qr_code` endpoint: encode the URL, build links, return the
existing artifact (200) or generate a new one (201).  `none` models an
uncaught `ValueError` from validation. -/
def create_qr_code (url : List Char) (fs : FS) :
    Option ((CreateStatus × QRCodeResponse) × FS) :=
  match encode_url_to_filename url with
  | none => none
  | some encoded_url =>
    let qr_filename := encoded_url ++ str ".png"
    let qr_code_full_path := pathDiv QR_DIRECTORY qr_filename
    let qr_code_download_url := downloadUrlOf qr_filename
    match generate_links (str "create") qr_filename SERVER_BASE_URL qr_code_download_url with
    | none => none
    | some links =>
      if qr_code_full_path ∈ fs then
        some ((CreateStatus.ok200,
          ⟨str "QR code already exists.", qr_code_download_url, links⟩), fs)
      else
        some ((CreateStatus.created201,
          ⟨str "QR code created successfully.", qr_code_download_url, links⟩),
          fs ++ [qr_code_full_path])

/-- One entry of the list comprehension in `list_qr_codes_endpoint`:
decode the filename and build its links; a raised error is `none`. -/
def list_entry_response (qr_file : List Char) : Option QRCodeResponse :=
  match decode_filename_to_url (qr_file.take (qr_file.length - 4)) with
  | none => none
  | some url =>
    match generate_links (str "list") qr_file SERVER_BASE_URL (downloadUrlOf qr_file) with
    | none => none
    | some links => some ⟨str "QR code available", url, links⟩

/-- Python list comprehension over fallible entries: the first raised
error aborts the whole comprehension. -/
def mapComprehension (f : α → Option β) : List α → Option (List β)
  | [] => some []
  | x :: xs =>
    match f x with
    | none => none
    | some y => (mapComprehension f xs).map (fun ys => y :: ys)

/-- `list_qr_codes_endpoint`: list the store's `.png` files and build a
response per entry; `none` models an uncaught per-entry exception. -/
def list_qr_codes_endpoint (fs : FS) : Option (List QRCodeResponse) :=
  let qr_files := list_qr_codes QR_DIRECTORY fs
  if qr_files = [] then some []
  else mapComprehension list_entry_response qr_files

/-- HTTP outcome of the delete endpoint. -/
inductive DeleteStatus where
  | notFound404
  | noContent204
deriving DecidableEq

/-- `delete_qr_code_endpoint`: 404 when `QR_DIRECTORY / qr_filename` is not a
file; otherwise call the service helper — passing the *full path* as its
`file_name` argument while the helper joins it onto its default
`directory="qr_codes"` — ignore its result, and return 204. -/
def delete_qr_code_endpoint (qr_filename : List Char) (fs : FS) : DeleteStatus × FS :=
  let qr_code_path := pathDiv QR_DIRECTORY qr_filename
  if qr_code_path ∈ fs then
    (DeleteStatus.noContent204, (delete_qr_code qr_code_path (str "qr_codes") fs).2)
  else (DeleteStatus.notFound404, fs)

/-! ### Basic lemmas: characters and the base-64 digit table -/

/-- A code point below the surrogate range survives the `Char.ofNat` round trip. -/
theorem toNat_ofNat_lt {n : Nat} (h : n < 0xD800) : (Char.ofNat n).toNat = n := by
  have hv : n.isValidChar := Or.inl h
  rw [Char.ofNat, dif_pos hv]
  rfl

/-- Unicode scalar values avoid the surrogate range and stay below `0x110000`. -/
theorem char_toNat_valid (c : Char) :
    c.toNat < 0xD800 ∨ (0xDFFF < c.toNat ∧ c.toNat < 0x110000) := c.valid

/-- The digit table inverts the URL-safe alphabet (after translation). -/
theorem table_translate_b64c : ∀ v : Nat, v < 64 →
    urlsafeTranslate (b64c v) ≠ 61 ∧ table_a2b (urlsafeTranslate (b64c v)) = some v := by
  decide

/-- Alphabet bytes are ASCII and are never the pad byte. -/
theorem b64c_props (n : Nat) : b64c n ≠ 61 ∧ b64c n < 128 := by
  unfold b64c
  split_ifs <;> omega

/-- A table-accepted byte is ASCII and is not the pad byte `61`. -/
theorem table_a2b_isSome_props {b : Nat} (h : (table_a2b (urlsafeTranslate b)).isSome = true) :
    b < 128 ∧ urlsafeTranslate b ≠ 61 := by
  unfold urlsafeTranslate at *
  unfold table_a2b at h
  split_ifs at h <;> simp_all <;> omega

/-! ### Unfolding lemmas for the `a2b_base64` state machine -/

theorem a2bLoop_nil (qp lc pads : Nat) (acc : List Nat) :
    a2bLoop [] qp lc pads acc = if qp = 0 then some acc.reverse else none := rfl

theorem a2bLoop_pad (rest : List Nat) (qp lc pads : Nat) (acc : List Nat) :
    a2bLoop (61 :: rest) qp lc pads acc =
      if 2 ≤ qp then
        if 4 ≤ qp + (pads + 1) then some acc.reverse else a2bLoop rest qp lc (pads + 1) acc
      else a2bLoop rest qp lc pads acc := by
  simp [a2bLoop]

theorem a2bLoop_val0 {b v : Nat} (hb : b ≠ 61) (hv : table_a2b b = some v)
    (rest : List Nat) (lc pads : Nat) (acc : List Nat) :
    a2bLoop (b :: rest) 0 lc pads acc = a2bLoop rest 1 v 0 acc := by
  simp [a2bLoop, hb, hv]

theorem a2bLoop_val1 {b v : Nat} (hb : b ≠ 61) (hv : table_a2b b = some v)
    (rest : List Nat) (lc pads : Nat) (acc : List Nat) :
    a2bLoop (b :: rest) 1 lc pads acc = a2bLoop rest 2 (v % 16) 0 ((lc * 4 + v / 16) :: acc) := by
  simp [a2bLoop, hb, hv]

theorem a2bLoop_val2 {b v : Nat} (hb : b ≠ 61) (hv : table_a2b b = some v)
    (rest : List Nat) (lc pads : Nat) (acc : List Nat) :
    a2bLoop (b :: rest) 2 lc pads acc = a2bLoop rest 3 (v % 4) 0 ((lc * 16 + v / 4) :: acc) := by
  simp [a2bLoop, hb, hv]

theorem a2bLoop_val3 {b v : Nat} (hb : b ≠ 61) (hv : table_a2b b = some v)
    (rest : List Nat) (lc pads : Nat) (acc : List Nat) :
    a2bLoop (b :: rest) 3 lc pads acc = a2bLoop rest 0 0 0 ((lc * 64 + v) :: acc) := by
  simp [a2bLoop, hb, hv]

/-- A run of pad bytes at quad position 0 is ignored entirely. -/
theorem a2bLoop_pads_qp0 (k : Nat) (lc pads : Nat) (acc : List Nat) :
    a2bLoop (List.replicate k 61) 0 lc pads acc = some acc.reverse := by
  induction k with
  | zero => rfl
  | succ n ih =>
    rw [List.replicate_succ, a2bLoop_pad]
    simpa using ih

/-- A run of pad bytes at quad position 1 leaves one dangling digit: error. -/
theorem a2bLoop_pads_qp1 (k : Nat) (lc pads : Nat) (acc : List Nat) :
    a2bLoop (List.replicate k 61) 1 lc pads acc = none := by
  induction k with
  | zero => rfl
  | succ n ih =>
    rw [List.replicate_succ, a2bLoop_pad]
    simpa using ih

/-- Two pads complete a quad from position 2. -/
theorem a2bLoop_pads_qp2 (lc : Nat) (acc : List Nat) :
    a2bLoop [61, 61] 2 lc 0 acc = some acc.reverse := by
  rw [a2bLoop_pad]
  norm_num
  rw [a2bLoop_pad]
  norm_num

/-- One pad completes a quad from position 3. -/
theorem a2bLoop_pads_qp3 (lc : Nat) (acc : List Nat) :
    a2bLoop [61] 3 lc 0 acc = some acc.reverse := by
  rw [a2bLoop_pad]
  norm_num

/-! ### UTF-8 lemmas -/

/-- Every byte UTF-8 encoding produces is a byte. -/
theorem utf8EncodeChar_lt_256 (c : Char) : ∀ b ∈ utf8EncodeChar c, b < 256 := by
  have h := char_toNat_valid c
  intro b hb
  simp only [utf8EncodeChar] at hb
  split_ifs at hb <;> simp only [List.mem_cons, List.not_mem_nil, or_false] at hb <;> omega

theorem utf8Encode_lt_256 (s : List Char) : ∀ b ∈ utf8Encode s, b < 256 := by
  intro b hb
  simp only [utf8Encode, List.mem_flatten, List.mem_map] at hb
  obtain ⟨l, ⟨c, _, rfl⟩, hbl⟩ := hb
  exact utf8EncodeChar_lt_256 c b hbl

/-- Enough fuel behaves like exactly enough fuel. -/
theorem utf8DecodeAux_mono (fuel : Nat) (l : List Nat) (h : l.length ≤ fuel) :
    utf8DecodeAux fuel l = utf8DecodeAux l.length l := by
  induction fuel using Nat.strong_induction_on generalizing l with
  | _ fuel ih =>
    match fuel, l with
    | f, [] => cases f <;> rfl
    | 0, b1 :: rest => simp at h
    | fuel + 1, b1 :: rest =>
      simp only [List.length_cons, utf8DecodeAux]
      cases hs : utf8Step b1 rest with
      | none => rfl
      | some pr =>
        obtain ⟨n, rest2⟩ := pr
        have hlen := utf8Step_length hs
        simp only [List.length_cons] at h
        simp only []
        rw [ih fuel (by omega) rest2 (by omega),
          ih rest.length (by omega) rest2 (by omega)]

theorem utf8Decode_step_some {b1 n : Nat} {rest rest2 : List Nat}
    (h : utf8Step b1 rest = some (n, rest2)) :
    utf8Decode (b1 :: rest) = (utf8Decode rest2).map (fun cs => Char.ofNat n :: cs) := by
  unfold utf8Decode
  simp only [List.length_cons, utf8DecodeAux, h]
  rw [utf8DecodeAux_mono rest.length rest2 (utf8Step_length h)]

theorem utf8Step_one {b1 : Nat} (h : b1 < 0x80) (rest : List Nat) :
    utf8Step b1 rest = some (b1, rest) := by
  simp only [utf8Step]
  rw [if_pos h]

theorem utf8Step_two {b1 b2 : Nat} (h1 : 0xC2 ≤ b1) (h2 : b1 < 0xE0) (h3 : 0x80 ≤ b2)
    (h4 : b2 < 0xC0) (rest : List Nat) :
    utf8Step b1 (b2 :: rest) = some ((b1 - 0xC0) * 64 + (b2 - 0x80), rest) := by
  simp only [utf8Step]
  rw [if_neg (by omega), if_neg (by omega), if_pos (by omega),
    if_pos (⟨h3, h4⟩ : 0x80 ≤ b2 ∧ b2 < 0xC0)]

theorem utf8Step_three {b1 b2 b3 : Nat} (h1 : 0xE0 ≤ b1) (h2 : b1 < 0xF0)
    (hg : if b1 = 0xE0 then 0xA0 ≤ b2 ∧ b2 < 0xC0
          else if b1 = 0xED then 0x80 ≤ b2 ∧ b2 < 0xA0
          else 0x80 ≤ b2 ∧ b2 < 0xC0)
    (h3 : 0x80 ≤ b3) (h4 : b3 < 0xC0) (rest : List Nat) :
    utf8Step b1 (b2 :: b3 :: rest) =
      some ((b1 - 0xE0) * 4096 + (b2 - 0x80) * 64 + (b3 - 0x80), rest) := by
  simp only [utf8Step]
  rw [if_neg (by omega), if_neg (by omega), if_neg (by omega), if_pos (by omega),
    if_pos ⟨hg, h3, h4⟩]

theorem utf8Step_four {b1 b2 b3 b4 : Nat} (h1 : 0xF0 ≤ b1) (h2 : b1 < 0xF5)
    (hg : if b1 = 0xF0 then 0x90 ≤ b2 ∧ b2 < 0xC0
          else if b1 = 0xF4 then 0x80 ≤ b2 ∧ b2 < 0x90
          else 0x80 ≤ b2 ∧ b2 < 0xC0)
    (h3 : 0x80 ≤ b3) (h4 : b3 < 0xC0) (h5 : 0x80 ≤ b4) (h6 : b4 < 0xC0) (rest : List Nat) :
    utf8Step b1 (b2 :: b3 :: b4 :: rest) =
      some ((b1 - 0xF0) * 262144 + (b2 - 0x80) * 4096 + (b3 - 0x80) * 64 + (b4 - 0x80), rest) := by
  simp only [utf8Step]
  rw [if_neg (by omega), if_neg (by omega), if_neg (by omega), if_neg (by omega),
    if_pos (by omega), if_pos ⟨hg, h3, h4, h5, h6⟩]

/-- Decoding peels off exactly the encoding of the first character. -/
theorem utf8Decode_encodeChar (c : Char) (rest : List Nat) :
    utf8Decode (utf8EncodeChar c ++ rest) = (utf8Decode rest).map (fun cs => c :: cs) := by
  have hval := char_toNat_valid c
  unfold utf8EncodeChar
  by_cases hc1 : c.toNat < 0x80
  · rw [if_pos hc1, List.cons_append, List.nil_append,
      utf8Decode_step_some (utf8Step_one hc1 rest), Char.ofNat_toNat]
  · by_cases hc2 : c.toNat < 0x800
    · rw [if_neg hc1, if_pos hc2]
      simp only [List.cons_append, List.nil_append]
      rw [utf8Decode_step_some (utf8Step_two (by omega) (by omega) (by omega) (by omega) rest)]
      rw [show (0xC0 + c.toNat / 64 - 0xC0) * 64 + (0x80 + c.toNat % 64 - 0x80) = c.toNat from by
        omega]
      rw [Char.ofNat_toNat]
    · by_cases hc3 : c.toNat < 0x10000
      · rw [if_neg hc1, if_neg hc2, if_pos hc3]
        simp only [List.cons_append, List.nil_append]
        rw [utf8Decode_step_some
          (utf8Step_three (by omega) (by omega) (by split_ifs <;> omega) (by omega) (by omega)
            rest)]
        rw [show (0xE0 + c.toNat / 4096 - 0xE0) * 4096 + (0x80 + c.toNat / 64 % 64 - 0x80) * 64 +
            (0x80 + c.toNat % 64 - 0x80) = c.toNat from by omega]
        rw [Char.ofNat_toNat]
      · rw [if_neg hc1, if_neg hc2, if_neg hc3]
        simp only [List.cons_append, List.nil_append]
        rw [utf8Decode_step_some
          (utf8Step_four (by omega) (by omega) (by split_ifs <;> omega) (by omega) (by omega)
            (by omega) (by omega) rest)]
        rw [show (0xF0 + c.toNat / 262144 - 0xF0) * 262144 + (0x80 + c.toNat / 4096 % 64 - 0x80) *
            4096 + (0x80 + c.toNat / 64 % 64 - 0x80) * 64 + (0x80 + c.toNat % 64 - 0x80) = c.toNat
          from by omega]
        rw [Char.ofNat_toNat]

/-- UTF-8 round trip: decoding an encoded string recovers it exactly. -/
theorem utf8_roundtrip (s : List Char) : utf8Decode (utf8Encode s) = some s := by
  induction s with
  | nil => rfl
  | cons c cs ih =>
    have : utf8Encode (c :: cs) = utf8EncodeChar c ++ utf8Encode cs := by
      simp [utf8Encode]
    rw [this, utf8Decode_encodeChar, ih]
    rfl

/-! ### Encoding-side lemmas: body, padding, stripping -/

/-- Number of `=` bytes `urlsafe_b64encode` appends. -/
def b64padCount (l : List Nat) : Nat :=
  if l.length % 3 = 1 then 2 else if l.length % 3 = 2 then 1 else 0

theorem urlsafe_b64encode_eq : (l : List Nat) →
    urlsafe_b64encode l = b64body l ++ List.replicate (b64padCount l) 61
  | [] => by simp [urlsafe_b64encode, b64body, b64padCount]
  | [b1] => by simp [urlsafe_b64encode, b64body, b64padCount, List.replicate]
  | [b1, b2] => by simp [urlsafe_b64encode, b64body, b64padCount, List.replicate]
  | b1 :: b2 :: b3 :: rest => by
    have ih := urlsafe_b64encode_eq rest
    have hmod : ((rest.length + 1 + 1 + 1) % 3 = 1 ↔ rest.length % 3 = 1) ∧
        ((rest.length + 1 + 1 + 1) % 3 = 2 ↔ rest.length % 3 = 2) := by omega
    simp only [urlsafe_b64encode, b64body, ih, b64padCount, List.length_cons, hmod.1, hmod.2,
      List.cons_append]

/-- Every byte of the encoded body is an alphabet byte: ASCII, not `=`. -/
theorem b64body_mem : (l : List Nat) → ∀ x ∈ b64body l, x ≠ 61 ∧ x < 128
  | [] => by simp [b64body]
  | [b1] => by
    simp only [b64body, List.mem_cons, List.not_mem_nil, or_false]
    rintro x (rfl | rfl) <;> exact b64c_props _
  | [b1, b2] => by
    simp only [b64body, List.mem_cons, List.not_mem_nil, or_false]
    rintro x (rfl | rfl | rfl) <;> exact b64c_props _
  | b1 :: b2 :: b3 :: rest => by
    have ih := b64body_mem rest
    simp only [b64body, List.mem_cons]
    rintro x (rfl | rfl | rfl | rfl | hx)
    · exact b64c_props _
    · exact b64c_props _
    · exact b64c_props _
    · exact b64c_props _
    · exact ih x hx

theorem dropWhile_replicate_61 (k : Nat) (a : List Nat) :
    List.dropWhile (fun b => b == 61) (List.replicate k 61 ++ a) =
      List.dropWhile (fun b => b == 61) a := by
  induction k with
  | zero => simp
  | succ n ih => simp [List.replicate_succ, List.dropWhile_cons, ih]

theorem dropWhile_eq_self_of_ne (a : List Nat) (ha : ∀ x ∈ a, x ≠ 61) :
    List.dropWhile (fun b => b == 61) a = a := by
  cases a with
  | nil => rfl
  | cons x xs =>
    have hx : x ≠ 61 := ha x (List.mem_cons_self x xs)
    simp [List.dropWhile_cons, hx]

/-- Stripping the pad run recovers exactly the body. -/
theorem rstripEq_body_pad (a : List Nat) (ha : ∀ x ∈ a, x ≠ 61) (k : Nat) :
    rstripEq (a ++ List.replicate k 61) = a := by
  unfold rstripEq
  rw [List.reverse_append, List.reverse_replicate, dropWhile_replicate_61,
    dropWhile_eq_self_of_ne _ (fun x hx => ha x (List.mem_reverse.mp hx)), List.reverse_reverse]

/-! ### The base-64 decoding of an encoded-then-stripped body -/

/-- Decoding the translated body plus the repadding `decode_filename_to_url`
computes (`4 - len % 4`, which is 4 when the body length is a multiple of 4)
recovers exactly the original bytes: the decoder ignores the excess pads. -/
theorem a2bLoop_decode_body : (l : List Nat) → (∀ b ∈ l, b < 256) → (acc : List Nat) →
    a2bLoop (List.map urlsafeTranslate (b64body l) ++
        List.replicate (4 - (b64body l).length % 4) 61) 0 0 0 acc
      = some (acc.reverse ++ l)
  | [], _, acc => by
    simpa [b64body] using a2bLoop_pads_qp0 4 0 0 acc
  | [b1], hl, acc => by
    have h1 : b1 < 256 := hl b1 (by simp)
    have t1 := table_translate_b64c (b1 / 4) (by omega)
    have t2 := table_translate_b64c (b1 % 4 * 16) (by omega)
    simp only [b64body, List.map_cons, List.map_nil, List.length_cons, List.length_nil]
    rw [show 4 - (0 + 1 + 1) % 4 = 2 from rfl, show List.replicate 2 61 = [61, 61] from rfl]
    simp only [List.cons_append, List.nil_append]
    rw [a2bLoop_val0 t1.1 t1.2, a2bLoop_val1 t2.1 t2.2]
    rw [show b1 / 4 * 4 + b1 % 4 * 16 / 16 = b1 from by omega,
      show b1 % 4 * 16 % 16 = 0 from by omega]
    rw [a2bLoop_pads_qp2]
    simp
  | [b1, b2], hl, acc => by
    have h1 : b1 < 256 := hl b1 (by simp)
    have h2 : b2 < 256 := hl b2 (by simp)
    have t1 := table_translate_b64c (b1 / 4) (by omega)
    have t2 := table_translate_b64c (b1 % 4 * 16 + b2 / 16) (by omega)
    have t3 := table_translate_b64c (b2 % 16 * 4) (by omega)
    simp only [b64body, List.map_cons, List.map_nil, List.length_cons, List.length_nil]
    rw [show 4 - (0 + 1 + 1 + 1) % 4 = 1 from rfl, show List.replicate 1 61 = [61] from rfl]
    simp only [List.cons_append, List.nil_append]
    rw [a2bLoop_val0 t1.1 t1.2, a2bLoop_val1 t2.1 t2.2, a2bLoop_val2 t3.1 t3.2]
    rw [show b1 / 4 * 4 + (b1 % 4 * 16 + b2 / 16) / 16 = b1 from by omega,
      show (b1 % 4 * 16 + b2 / 16) % 16 * 16 + b2 % 16 * 4 / 4 = b2 from by omega]
    rw [a2bLoop_pads_qp3]
    simp
  | b1 :: b2 :: b3 :: rest, hl, acc => by
    have h1 : b1 < 256 := hl b1 (by simp)
    have h2 : b2 < 256 := hl b2 (by simp)
    have h3 : b3 < 256 := hl b3 (by simp)
    have hrest : ∀ b ∈ rest, b < 256 := fun b hb => hl b (by simp [hb])
    have t1 := table_translate_b64c (b1 / 4) (by omega)
    have t2 := table_translate_b64c (b1 % 4 * 16 + b2 / 16) (by omega)
    have t3 := table_translate_b64c (b2 % 16 * 4 + b3 / 64) (by omega)
    have t4 := table_translate_b64c (b3 % 64) (by omega)
    have ih := a2bLoop_decode_body rest hrest (b3 :: b2 :: b1 :: acc)
    simp only [b64body, List.map_cons, List.length_cons, List.cons_append]
    rw [show 4 - ((b64body rest).length + 1 + 1 + 1 + 1) % 4 = 4 - (b64body rest).length % 4
      from by omega]
    rw [a2bLoop_val0 t1.1 t1.2, a2bLoop_val1 t2.1 t2.2, a2bLoop_val2 t3.1 t3.2,
      a2bLoop_val3 t4.1 t4.2]
    rw [show b1 / 4 * 4 + (b1 % 4 * 16 + b2 / 16) / 16 = b1 from by omega,
      show (b1 % 4 * 16 + b2 / 16) % 16 * 16 + (b2 % 16 * 4 + b3 / 64) / 4 = b2 from by omega,
      show (b2 % 16 * 4 + b3 / 64) % 4 * 64 + b3 % 64 = b3 from by omega]
    rw [ih]
    simp

/-! ### Codec assembly -/

/-- On accepted input, the encoder yields exactly the padding-stripped body. -/
theorem encode_eq {u su : List Char} (h : validate_and_sanitize_url u = some su) :
    encode_url_to_filename u = some ((b64body (utf8Encode su)).map Char.ofNat) := by
  unfold encode_url_to_filename
  rw [h]
  simp only [Option.map_some']
  rw [urlsafe_b64encode_eq, rstripEq_body_pad _ (fun x hx => (b64body_mem _ x hx).1)]

/-- Decoding an identifier produced by the padding-stripped base-64 encoding
recovers the original string. -/
theorem decode_encode_core (su : List Char) :
    decode_filename_to_url ((b64body (utf8Encode su)).map Char.ofNat) = some su := by
  have hmem := b64body_mem (utf8Encode su)
  unfold decode_filename_to_url
  rw [List.length_map]
  have hpn : 4 - (b64body (utf8Encode su)).length % 4 ≠ 0 := by omega
  simp only []
  rw [if_pos hpn]
  unfold urlsafe_b64decode
  have hascii : ((b64body (utf8Encode su)).map Char.ofNat ++
      List.replicate (4 - (b64body (utf8Encode su)).length % 4) '=').all
        (fun c => c.toNat < 128) = true := by
    rw [List.all_eq_true]
    intro c hc
    rcases List.mem_append.mp hc with hc | hc
    · obtain ⟨x, hx, rfl⟩ := List.mem_map.mp hc
      have hx2 := (hmem x hx).2
      simp only [decide_eq_true_eq]
      rw [toNat_ofNat_lt (by omega)]
      omega
    · rw [List.eq_of_mem_replicate hc]
      decide
  rw [if_pos hascii]
  rw [List.map_append, List.map_map, List.map_replicate]
  have hmap : (b64body (utf8Encode su)).map ((fun c => urlsafeTranslate c.toNat) ∘ Char.ofNat) =
      (b64body (utf8Encode su)).map urlsafeTranslate := by
    apply List.map_congr_left
    intro x hx
    have hx2 := (hmem x hx).2
    simp only [Function.comp_apply]
    rw [toNat_ofNat_lt (by omega)]
  rw [hmap, show urlsafeTranslate (Char.toNat '=') = 61 from by decide]
  have hdec := a2bLoop_decode_body (utf8Encode su) (utf8Encode_lt_256 su) []
  simp only [List.reverse_nil, List.nil_append] at hdec
  unfold a2b_base64
  rw [hdec]
  simp only []
  exact utf8_roundtrip su

/-! ### The decoder on alphabet-only data -/

/-- Consuming alphabet data advances the quad position by the data length
and resets the pad counter (unless no data was consumed). -/
theorem a2bLoop_data (s : List Nat) :
    (∀ b ∈ s, b ≠ 61 ∧ (table_a2b b).isSome) →
    ∀ qp lc pads acc (tail : List Nat), qp < 4 →
    ∃ lc2 acc2, a2bLoop (s ++ tail) qp lc pads acc
      = a2bLoop tail ((qp + s.length) % 4) lc2 (if s = [] then pads else 0) acc2 := by
  induction s with
  | nil =>
    intro _ qp lc pads acc tail hqp
    exact ⟨lc, acc, by simp [Nat.mod_eq_of_lt hqp]⟩
  | cons b s ih =>
    intro hv qp lc pads acc tail hqp
    obtain ⟨hb, hsome⟩ := hv b (List.mem_cons_self b s)
    obtain ⟨v, hv2⟩ := Option.isSome_iff_exists.mp hsome
    have hrest : ∀ x ∈ s, x ≠ 61 ∧ (table_a2b x).isSome :=
      fun x hx => hv x (List.mem_cons_of_mem b hx)
    interval_cases qp
    · obtain ⟨lc2, acc2, he⟩ := ih hrest 1 v 0 acc tail (by omega)
      simp only [ite_self] at he
      rw [show (1 + s.length) % 4 = (0 + (b :: s).length) % 4 from by
        simp only [List.length_cons]; omega] at he
      refine ⟨lc2, acc2, ?_⟩
      rw [List.cons_append, a2bLoop_val0 hb hv2, he, if_neg (List.cons_ne_nil b s)]
    · obtain ⟨lc2, acc2, he⟩ := ih hrest 2 (v % 16) 0 ((lc * 4 + v / 16) :: acc) tail (by omega)
      simp only [ite_self] at he
      rw [show (2 + s.length) % 4 = (1 + (b :: s).length) % 4 from by
        simp only [List.length_cons]; omega] at he
      refine ⟨lc2, acc2, ?_⟩
      rw [List.cons_append, a2bLoop_val1 hb hv2, he, if_neg (List.cons_ne_nil b s)]
    · obtain ⟨lc2, acc2, he⟩ := ih hrest 3 (v % 4) 0 ((lc * 16 + v / 4) :: acc) tail (by omega)
      simp only [ite_self] at he
      rw [show (3 + s.length) % 4 = (2 + (b :: s).length) % 4 from by
        simp only [List.length_cons]; omega] at he
      refine ⟨lc2, acc2, ?_⟩
      rw [List.cons_append, a2bLoop_val2 hb hv2, he, if_neg (List.cons_ne_nil b s)]
    · obtain ⟨lc2, acc2, he⟩ := ih hrest 0 0 0 ((lc * 64 + v) :: acc) tail (by omega)
      simp only [ite_self] at he
      rw [show (0 + s.length) % 4 = (3 + (b :: s).length) % 4 from by
        simp only [List.length_cons]; omega] at he
      refine ⟨lc2, acc2, ?_⟩
      rw [List.cons_append, a2bLoop_val3 hb hv2, he, if_neg (List.cons_ne_nil b s)]

/-- On alphabet-only data with the repadding the decoder computes:
a dangling digit (length ≡ 1 mod 4) is an error; otherwise decoding
succeeds — also when the length is a multiple of 4 and four excess pads
were appended. -/
theorem a2b_alpha (s : List Nat) (hv : ∀ b ∈ s, b ≠ 61 ∧ (table_a2b b).isSome) :
    (s.length % 4 = 1 → a2bLoop (s ++ List.replicate 3 61) 0 0 0 [] = none)
  ∧ (s.length % 4 ≠ 1 →
      (a2bLoop (s ++ List.replicate (4 - s.length % 4) 61) 0 0 0 []).isSome = true) := by
  constructor
  · intro h1
    obtain ⟨lc2, acc2, he⟩ := a2bLoop_data s hv 0 0 0 [] (List.replicate 3 61) (by omega)
    rw [he, show (0 + s.length) % 4 = 1 from by omega]
    exact a2bLoop_pads_qp1 3 lc2 _ acc2
  · intro h1
    obtain ⟨lc2, acc2, he⟩ :=
      a2bLoop_data s hv 0 0 0 [] (List.replicate (4 - s.length % 4) 61) (by omega)
    rw [he]
    have h4 : s.length % 4 = 0 ∨ s.length % 4 = 2 ∨ s.length % 4 = 3 := by omega
    rcases h4 with h4 | h4 | h4
    · rw [show (0 + s.length) % 4 = 0 from by omega, a2bLoop_pads_qp0]
      rfl
    · rw [show (0 + s.length) % 4 = 2 from by omega, ite_self, h4,
        show List.replicate (4 - 2) (61 : Nat) = [61, 61] from rfl, a2bLoop_pads_qp2]
      rfl
    · rw [show (0 + s.length) % 4 = 3 from by omega, ite_self, h4,
        show List.replicate (4 - 3) (61 : Nat) = [61] from rfl, a2bLoop_pads_qp3]
      rfl

theorem isB64UrlChar_props {c : Char} (h : isB64UrlChar c = true) :
    c.toNat < 128 ∧ urlsafeTranslate c.toNat ≠ 61 :=
  table_a2b_isSome_props h

/-- `decode_filename_to_url` on alphabet-only input: failure exactly at
length ≡ 1 mod 4 (before UTF-8 decoding). -/
theorem decode_alpha (s : List Char) (h : ∀ c ∈ s, isB64UrlChar c = true) :
    (s.length % 4 = 1 → decode_filename_to_url s = none)
  ∧ (s.length % 4 ≠ 1 →
      (urlsafe_b64decode (s ++ List.replicate (4 - s.length % 4) '=')).isSome = true
    ∧ decode_filename_to_url s =
        (urlsafe_b64decode (s ++ List.replicate (4 - s.length % 4) '=')).bind utf8Decode) := by
  have hascii : ((s ++ List.replicate (4 - s.length % 4) '=').all
      (fun c => c.toNat < 128)) = true := by
    rw [List.all_eq_true]
    intro c hc
    rcases List.mem_append.mp hc with hc | hc
    · simpa using (isB64UrlChar_props (h c hc)).1
    · rw [List.eq_of_mem_replicate hc]
      decide
  have hdata : ∀ b ∈ s.map (fun c => urlsafeTranslate c.toNat),
      b ≠ 61 ∧ (table_a2b b).isSome := by
    intro b hb
    obtain ⟨c, hc, rfl⟩ := List.mem_map.mp hb
    have h2 := h c hc
    exact ⟨(isB64UrlChar_props h2).2, h2⟩
  have hpn : 4 - s.length % 4 ≠ 0 := by omega
  have halpha := a2b_alpha (s.map (fun c => urlsafeTranslate c.toNat)) hdata
  rw [List.length_map] at halpha
  have hdec : decode_filename_to_url s =
      match urlsafe_b64decode (s ++ List.replicate (4 - s.length % 4) '=') with
      | none => none
      | some bytes => utf8Decode bytes := by
    unfold decode_filename_to_url
    simp only []
    rw [if_pos hpn]
  have hurl : urlsafe_b64decode (s ++ List.replicate (4 - s.length % 4) '=') =
      a2bLoop (s.map (fun c => urlsafeTranslate c.toNat) ++
        List.replicate (4 - s.length % 4) 61) 0 0 0 [] := by
    unfold urlsafe_b64decode
    rw [if_pos hascii, List.map_append, List.map_replicate,
      show urlsafeTranslate (Char.toNat '=') = 61 from by decide]
    rfl
  constructor
  · intro h1
    have h3 : 4 - s.length % 4 = 3 := by omega
    rw [hdec, hurl, h3, halpha.1 h1]
  · intro h1
    obtain ⟨bytes, hb⟩ := Option.isSome_iff_exists.mp (halpha.2 h1)
    rw [hurl] at hdec ⊢
    rw [hb] at hdec ⊢
    exact ⟨rfl, hdec⟩

/-- A raised exception inside a Python list comprehension aborts it whole. -/
theorem mapComprehension_eq_none {α β : Type} {f : α → Option β} {l : List α} {x : α}
    (hx : x ∈ l) (hf : f x = none) : mapComprehension f l = none := by
  induction l with
  | nil => cases hx
  | cons y ys ih =>
    rcases List.mem_cons.mp hx with rfl | hx2
    · simp [mapComprehension, hf]
    · unfold mapComprehension
      cases f y
      · rfl
      · rw [ih hx2]
        rfl

/-! ### Claim theorems -/

/-- C1: for every URL the validator accepts, decoding the identifier
produced by encoding it recovers exactly the validator's normalized output:
`decode_filename_to_url (encode_url_to_filename u) = validate_and_sanitize_url u`. -/
theorem C1_roundtrip (u nu f : List Char) (hv : validate_and_sanitize_url u = some nu)
    (he : encode_url_to_filename u = some f) :
    decode_filename_to_url f = some nu := by
  rw [encode_eq hv] at he
  obtain rfl := Option.some.inj he
  exact decode_encode_core nu

/-- Witness for C1 at the URL `http://x`, identifier `aHR0cDovL3g`. -/
theorem C1_roundtrip_witness :
    decode_filename_to_url (str "aHR0cDovL3g") = some (str "http://x") :=
  C1_roundtrip (str "http://x") (str "http://x") (str "aHR0cDovL3g") (by decide) (by decide)

/-- C2 (amended): the pad count applied by `decode_filename_to_url` is
`{4,3,2,1}` for input lengths `{0,1,2,3}` mod 4 — 4, not 0, when the length
is a multiple of 4 — and an alphabet-only input of length ≡ 1 mod 4 makes
decoding fail. -/
theorem C2_padding (s : List Char) :
    padding_applied s = (if s.length % 4 = 0 then 4 else 4 - s.length % 4)
  ∧ (s.length % 4 = 1 → (∀ c ∈ s, isB64UrlChar c = true) →
      decode_filename_to_url s = none) := by
  constructor
  · unfold padding_applied
    simp only []
    split_ifs <;> omega
  · intro h1 h2
    exact (decode_alpha s h2).1 h1

/-- C2 counterexample: at length 4 (≡ 0 mod 4) the code's repadding formula
appends 4 pad characters, not 0 as the claim states. -/
theorem C2_padding_cex :
    (str "AAAA").length % 4 = 0 ∧ padding_applied (str "AAAA") = 4 := by decide

/-- Witness for C2 at the length-1 alphabet input `A`. -/
theorem C2_padding_witness :
    (str "A").length % 4 = 1 ∧ decode_filename_to_url (str "A") = none :=
  ⟨by decide, (C2_padding (str "A")).2 (by decide) (by decide)⟩

/-- C3 counterexample: a store with one well-formed entry and one corrupted
entry — the entire listing fails (`none`); no per-entry error is reported. -/
theorem C3_list_cex :
    list_entry_response (str "aHR0cDovL3g.png") ≠ none
  ∧ list_entry_response (str "A.png") = none
  ∧ list_qr_codes_endpoint
      [str "qr_codes/aHR0cDovL3g.png", str "qr_codes/A.png"] = none := by decide

/-- C3 (amended): one entry whose filename fails to decode makes the whole
List operation fail; the decode error is not isolated per entry. -/
theorem C3_list_fails (fs : FS) (f : List Char)
    (hm : f ∈ list_qr_codes QR_DIRECTORY fs) (hf : list_entry_response f = none) :
    list_qr_codes_endpoint fs = none := by
  unfold list_qr_codes_endpoint
  simp only []
  have hne : ¬ list_qr_codes QR_DIRECTORY fs = [] := by
    intro hnil
    rw [hnil] at hm
    cases hm
  rw [if_neg hne]
  exact mapComprehension_eq_none hm hf

/-- Witness for C3 at a store holding one corrupted entry. -/
theorem C3_list_fails_witness :
    list_qr_codes_endpoint [str "qr_codes/A.png"] = none :=
  C3_list_fails [str "qr_codes/A.png"] (str "A.png") (by decide) (by decide)

/-- C4: deleting an absent filename is 404; but deleting a present filename
reports 204 while leaving the store unchanged — the service helper joins its
default directory onto the already-full path, finds nothing, removes
nothing, and its `False` result is ignored — so a subsequent List still
returns the artifact. -/
theorem C4_delete_divergence :
    delete_qr_code_endpoint (str "absent.png") [] = (DeleteStatus.notFound404, [])
  ∧ delete_qr_code_endpoint (str "aHR0cDovL3g.png") [str "qr_codes/aHR0cDovL3g.png"]
      = (DeleteStatus.noContent204, [str "qr_codes/aHR0cDovL3g.png"])
  ∧ (list_qr_codes_endpoint
      ((delete_qr_code_endpoint (str "aHR0cDovL3g.png")
        [str "qr_codes/aHR0cDovL3g.png"]).2)).map List.length = some 1 := by decide

/-- C5: on `<id>.png` filenames with decodable identifiers, actions `create`
and `list` produce exactly the view link then the delete link, with the
stated relations, methods, content types, and hrefs. -/
theorem C5_links (act id base dl url : List Char)
    (ha : act = str "create" ∨ act = str "list")
    (h : decode_filename_to_url id = some url) :
    generate_links act (id ++ str ".png") base dl =
      some [⟨str "view", dl, str "GET", str "image/png"⟩,
        ⟨str "delete", base ++ str "/qr-codes/" ++ (id ++ str ".png"), str "DELETE",
          str "application/json"⟩] := by
  unfold generate_links
  simp only []
  rw [if_pos ha.symm]
  have htake : (id ++ str ".png").take ((id ++ str ".png").length - 4) = id := by
    rw [List.length_append, show (str ".png").length = 4 from rfl,
      show id.length + 4 - 4 = id.length from by omega]
    exact List.take_left id (str ".png")
  rw [htake, h]

/-- Witness for C5 at the identifier `aHR0cDovL3g` with action `create`. -/
theorem C5_links_witness :
    generate_links (str "create") (str "aHR0cDovL3g" ++ str ".png") (str "http://x")
      (str "http://x/downloads/aHR0cDovL3g.png") =
      some [⟨str "view", str "http://x/downloads/aHR0cDovL3g.png", str "GET", str "image/png"⟩,
        ⟨str "delete", str "http://x" ++ str "/qr-codes/" ++ (str "aHR0cDovL3g" ++ str ".png"),
          str "DELETE", str "application/json"⟩] :=
  C5_links (str "create") (str "aHR0cDovL3g") (str "http://x")
    (str "http://x/downloads/aHR0cDovL3g.png") (str "http://x") (Or.inl rfl) (by decide)

/-- C6 counterexample: `"$$$$"` is not valid URL-safe base-64 after
repadding, yet decode succeeds with the empty string — non-alphabet ASCII
characters are silently discarded, not rejected. -/
theorem C6_decode_cex :
    isStrictBase64Url (str "$$$$" ++ List.replicate (4 - (str "$$$$").length % 4) '=') = false
  ∧ decode_filename_to_url (str "$$$$") = some [] := by decide

/-- C6 (amended): on input made only of URL-safe alphabet characters, decode
fails before the UTF-8 stage exactly when the length is ≡ 1 mod 4; otherwise
base-64 decoding succeeds and the result is the UTF-8 decoding of the
decoded bytes (so a further failure can only be invalid UTF-8). -/
theorem C6_decode_malformed (s : List Char) (h : ∀ c ∈ s, isB64UrlChar c = true) :
    (s.length % 4 = 1 → decode_filename_to_url s = none)
  ∧ (s.length % 4 ≠ 1 →
      (urlsafe_b64decode (s ++ List.replicate (4 - s.length % 4) '=')).isSome = true
    ∧ decode_filename_to_url s =
        (urlsafe_b64decode (s ++ List.replicate (4 - s.length % 4) '=')).bind utf8Decode) :=
  decode_alpha s h

/-- Witness for C6 at the alphabet input `AA`. -/
theorem C6_decode_malformed_witness :
    (urlsafe_b64decode (str "AA" ++ List.replicate (4 - (str "AA").length % 4) '=')).isSome = true
  ∧ decode_filename_to_url (str "AA") =
      (urlsafe_b64decode (str "AA" ++ List.replicate (4 - (str "AA").length % 4) '=')).bind
        utf8Decode :=
  (C6_decode_malformed (str "AA") (by decide)).2 (by decide)

/-- C7: the validator fails with the invalid-URL error on every string the
URL well-formedness rule rejects — among them `"not a url"`, `""` and
`"ftp//missing-colon"` — and never coerces such input into a URL. -/
theorem C7_validator_rejects (s : List Char) (h : validators_url s = false) :
    validate_and_sanitize_url (str "not a url") = none
  ∧ validate_and_sanitize_url (str "") = none
  ∧ validate_and_sanitize_url (str "ftp//missing-colon") = none
  ∧ validate_and_sanitize_url s = none := by
  refine ⟨by decide, by decide, by decide, ?_⟩
  unfold validate_and_sanitize_url
  simp [h]

/-- Witness for C7 at `"not a url"`. -/
theorem C7_validator_rejects_witness :
    validators_url (str "not a url") = false
  ∧ validate_and_sanitize_url (str "not a url") = none :=
  ⟨by decide, (C7_validator_rejects (str "not a url") (by decide)).2.2.2⟩

/-- C8: a second Create with the same URL yields the same filename and takes
the existing-artifact path: a 200 response carrying the same download URL
and links, with the store unchanged (no regeneration). -/
theorem C8_create_idempotent (url : List Char) (fs fs1 : FS) (st : CreateStatus)
    (resp : QRCodeResponse) (h : create_qr_code url fs = some ((st, resp), fs1)) :
    create_qr_code url fs1 = some ((CreateStatus.ok200,
      ⟨str "QR code already exists.", resp.qr_code_url, resp.links⟩), fs1) := by
  unfold create_qr_code at h ⊢
  cases he : encode_url_to_filename url with
  | none =>
    rw [he] at h
    simp only [] at h
    cases h
  | some enc =>
    rw [he] at h
    simp only [] at h ⊢
    cases hg : generate_links (str "create") (enc ++ str ".png") SERVER_BASE_URL
        (downloadUrlOf (enc ++ str ".png")) with
    | none =>
      rw [hg] at h
      simp only [] at h
      cases h
    | some links =>
      rw [hg] at h
      simp only [] at h
      by_cases hin : pathDiv QR_DIRECTORY (enc ++ str ".png") ∈ fs
      · rw [if_pos hin] at h
        simp only [Option.some.injEq, Prod.mk.injEq] at h
        obtain ⟨⟨hst, hresp⟩, hfs⟩ := h
        subst hresp hfs
        simp only []
        rw [if_pos hin]
      · rw [if_neg hin] at h
        simp only [Option.some.injEq, Prod.mk.injEq] at h
        obtain ⟨⟨hst, hresp⟩, hfs⟩ := h
        subst hresp hfs
        simp only []
        rw [if_pos (by simp : pathDiv QR_DIRECTORY (enc ++ str ".png") ∈
          fs ++ [pathDiv QR_DIRECTORY (enc ++ str ".png")])]

/-- Witness for C8: create `http://x` on the empty store, then again on the
resulting store. -/
theorem C8_create_idempotent_witness :
    create_qr_code (str "http://x") [str "qr_codes/aHR0cDovL3g.png"] =
      some ((CreateStatus.ok200,
        ⟨str "QR code already exists.", str "http://localhost:8000/downloads/aHR0cDovL3g.png",
          [⟨str "view", str "http://localhost:8000/downloads/aHR0cDovL3g.png", str "GET",
            str "image/png"⟩,
          ⟨str "delete", str "http://localhost:8000/qr-codes/aHR0cDovL3g.png", str "DELETE",
            str "application/json"⟩]⟩), [str "qr_codes/aHR0cDovL3g.png"]) :=
  C8_create_idempotent (str "http://x") [] [str "qr_codes/aHR0cDovL3g.png"]
    CreateStatus.created201
    ⟨str "QR code created successfully.", str "http://localhost:8000/downloads/aHR0cDovL3g.png",
      [⟨str "view", str "http://localhost:8000/downloads/aHR0cDovL3g.png", str "GET",
        str "image/png"⟩,
      ⟨str "delete", str "http://localhost:8000/qr-codes/aHR0cDovL3g.png", str "DELETE",
        str "application/json"⟩]⟩
    (by decide)

/-- C9: on every string the validator rejects, the encoder raises that
validation error and produces no identifier. -/
theorem C9_encode_requires_valid (u : List Char)
    (h : validate_and_sanitize_url u = none) : encode_url_to_filename u = none := by
  unfold encode_url_to_filename
  rw [h]
  rfl

/-- Witness for C9 at `"not a url"`. -/
theorem C9_encode_requires_valid_witness :
    encode_url_to_filename (str "not a url") = none :=
  C9_encode_requires_valid (str "not a url") (by decide)

/-- C10: any action outside list/create/delete yields the empty link list
without decoding; and action `delete` never decodes the filename, so even a
corrupt filename yields exactly the single delete link. -/
theorem C10_links_other (act fn base dl : List Char)
    (h : ¬(act = str "list" ∨ act = str "create" ∨ act = str "delete")) :
    generate_links act fn base dl = some []
  ∧ generate_links (str "delete") fn base dl =
      some [⟨str "delete", base ++ str "/qr-codes/" ++ fn, str "DELETE",
        str "application/json"⟩] := by
  constructor
  · unfold generate_links
    simp only []
    rw [if_neg (by tauto), if_neg (by tauto)]
  · unfold generate_links
    simp only []
    rw [if_neg (by decide)]
    simp

/-- Witness for C10: the unknown action `view` and the corrupt filename
`A.png` under action `delete`. -/
theorem C10_links_other_witness :
    generate_links (str "view") (str "A.png") (str "b") (str "d") = some []
  ∧ generate_links (str "delete") (str "A.png") (str "b") (str "d") =
      some [⟨str "delete", str "b" ++ str "/qr-codes/" ++ str "A.png", str "DELETE",
        str "application/json"⟩] :=
  C10_links_other (str "view") (str "A.png") (str "b") (str "d") (by decide)

end QRCodeAPI
